import Mathlib

/-
Verification development for the rendering dispatch engine of
`converters/base.py` (class `Converter`): document traversal, renderer
dispatch with unknown-kind fallbacks, document assembly, and the
figure-extraction protocol.

Shallow embedding conventions:
* Python strings are Lean `String`; rendered line buffers are `List String`.
* Methods that may raise return `Except String α` (the `String` is the
  exception description).
* The file system is modelled explicitly (`FS`): a set of directories and a
  list of files keyed by (directory, file name); `open(_, 'wb')` overwrites.
* `logging.warning` calls are collected in a `List String` log component.
-/

deriving instance DecidableEq for Except

namespace NBC

/-- Model of Python `str.replace('/files/', '')` as used by
`converters/utils.remove_fake_files_url`.  Deletes every (left-to-right,
non-overlapping) occurrence of the seven-character marker `/files/`. -/
def stripMarker : List Char → List Char
  | '/' :: 'f' :: 'i' :: 'l' :: 'e' :: 's' :: '/' :: rest => stripMarker rest
  | c :: cs => c :: stripMarker cs
  | [] => []

/-- Decimal digits of `n`, most significant first, with explicit fuel so the
definition is structural.  Models the digit sequence produced by Python
`'%i' % n`.  For `n < fuel` this is the usual base-10 representation. -/
def dig : Nat → Nat → List Char
  | 0, _ => []
  | fuel + 1, n =>
    if n < 10 then [Nat.digitChar n]
    else dig fuel (n / 10) ++ [Nat.digitChar (n % 10)]

/-- Decimal representation of `n` (model of Python `'%i' % n`). -/
def decRepr (n : Nat) : List Char := dig (n + 1) n

/-- Model of Python `'%02i' % n`: the decimal representation left-padded with
`'0'` to a minimum width of two characters. -/
def pad2 (n : Nat) : List Char := if n < 10 then '0' :: decRepr n else decRepr n

/-- String form of `pad2`. -/
def pad2Str (n : Nat) : String := String.mk (pad2 n)

/-- Model of Python `sep.join(l)`. -/
def pyJoin (sep : String) : List String → String
  | [] => ""
  | [s] => s
  | s :: rest => s ++ sep ++ pyJoin sep rest

/-- Helper for `pySplitNl`: `acc` holds the reversed current segment. -/
def splitNlAux : List Char → List Char → List String
  | [], acc => [String.mk acc.reverse]
  | c :: cs, acc =>
    if c = '\n' then String.mk acc.reverse :: splitNlAux cs []
    else splitNlAux cs (c :: acc)

/-- Model of Python `s.split('\n')`: split on every newline, keeping empty
segments (so the empty string yields one empty segment). -/
def pySplitNl (s : String) : List String := splitNlAux s.data []

/-- Value of a base64 alphabet character (model of the table used by the
Python 2 `'base64'` codec); `none` for characters outside the alphabet. -/
def b64Val (c : Char) : Option Nat :=
  if 'A' ≤ c ∧ c ≤ 'Z' then some (c.toNat - 65)
  else if 'a' ≤ c ∧ c ≤ 'z' then some (c.toNat - 97 + 26)
  else if '0' ≤ c ∧ c ≤ '9' then some (c.toNat - 48 + 52)
  else if c = '+' then some 62
  else if c = '/' then some 63
  else none

/-- Accumulate 6-bit groups into bytes: `acc` holds `nbits` pending bits. -/
def b64Bytes : List Nat → Nat → Nat → List Nat
  | [], _, _ => []
  | v :: vs, acc, nbits =>
    let acc' := acc * 64 + v
    let nbits' := nbits + 6
    if 8 ≤ nbits' then
      (acc' / 2 ^ (nbits' - 8)) % 256 :: b64Bytes vs (acc' % 2 ^ (nbits' - 8)) (nbits' - 8)
    else
      b64Bytes vs acc' nbits'

/-- Model of Python 2 `data.decode('base64')`: characters outside the base64
alphabet (including `=` padding) are skipped, the 6-bit values are packed and
the trailing incomplete byte is dropped. -/
def base64Decode (s : String) : List Nat :=
  b64Bytes (s.data.filterMap b64Val) 0 0

--------------------------------------------------------------------------
-- Data model (spec section 3): documents, worksheets, cells, outputs
--------------------------------------------------------------------------

/-- An output node: a mapping from format tag to payload, in iteration
order.  The discriminator is stored under the literal key `output_type`. -/
abbrev Output := List (String × String)

/-- Lookup `output[fmt]` for a key obtained from the mapping itself. -/
def outGet (out : Output) (fmt : String) : String :=
  ((out.find? (fun e => e.1 == fmt)).map (·.2)).getD ""

/-- The `output_type` discriminator field of an output node. -/
def outputTypeOf (out : Output) : String := outGet out "output_type"

/-- A cell: kind tag, textual content, and (for code cells) outputs. -/
structure Cell where
  cell_type : String
  content : String
  outputs : List Output
  deriving DecidableEq

/-- A worksheet: an ordered sequence of cells. -/
structure Worksheet where
  cells : List Cell
  deriving DecidableEq

/-- A document: an ordered sequence of worksheets. -/
structure Notebook where
  worksheets : List Worksheet
  deriving DecidableEq

/-- All cells of a document, in traversal order (worksheets in document
order, cells in worksheet order). -/
def allCells (nb : Notebook) : List Cell := (nb.worksheets.map Worksheet.cells).flatten

--------------------------------------------------------------------------
-- File-system model
--------------------------------------------------------------------------

/-- Contents of a written file: raw bytes (`open(_, 'wb')` after base64
decoding) or text written through `codecs.open(_, 'wb', encoding)`. -/
inductive FileData where
  | binary (bytes : List Nat)
  | text (s : String) (encoding : String)
  deriving DecidableEq

/-- Explicit file-system state: existing directories and files keyed by
(directory, file name). -/
structure FS where
  dirs : List String
  files : List (String × String × FileData)
  deriving DecidableEq

/-- Model of `os.listdir d`, restricted to what the engine observes: the entries of
directory `d`. -/
def listdir (fs : FS) (d : String) : List (String × String × FileData) :=
  fs.files.filter (fun e => e.1 == d)

/-- Write a file, overwriting any previous file with the same name in the
same directory (Python `open(fullname, 'wb')`). -/
def writeFile (fs : FS) (d n : String) (b : FileData) : FS :=
  { fs with files := fs.files.filter (fun e => !(e.1 == d && e.2.1 == n)) ++ [(d, n, b)] }

/-- Read a file back. -/
def readFile (fs : FS) (d n : String) : Option FileData :=
  (fs.files.find? (fun e => e.1 == d && e.2.1 == n)).map (fun e => e.2.2)

--------------------------------------------------------------------------
-- Conversion session state and the figure extractor
--------------------------------------------------------------------------

/-- The class attribute `Converter.default_encoding`. -/
def default_encoding : String := "utf-8"

/-- The session state of one `Converter` instance: `self.infile_root`,
`self.files_dir`, `self.figures_counter`, plus the file system it acts on. -/
structure Session where
  infile_root : String
  files_dir : String
  figures_counter : Nat
  fs : FS
  deriving DecidableEq

/-- The figure file name `'%s_fig_%02i.%s' % (infile_root, counter, fmt)`. -/
def mkFigname (root : String) (i : Nat) (fmt : String) : String :=
  root ++ "_fig_" ++ pad2Str i ++ "." ++ fmt

/-- The full path `os.path.join(files_dir, figname)`. -/
def mkFullname (dir root : String) (i : Nat) (fmt : String) : String :=
  dir ++ "/" ++ mkFigname root i fmt

/-- Embedding of `Converter._new_figure(data, fmt)`: build the file name from the current
counter, increment the counter, decode the payload (base64 for the binary
formats png/jpg/pdf, text in the default encoding otherwise), write the file
into the asset directory and return its full path. -/
def new_figure (st : Session) (data : String) (fmt : String) : String × Session :=
  let figname := mkFigname st.infile_root st.figures_counter fmt
  let fullname := st.files_dir ++ "/" ++ figname
  let fdata :=
    if fmt = "png" ∨ fmt = "jpg" ∨ fmt = "pdf" then
      FileData.binary (base64Decode data)
    else
      FileData.text data default_encoding
  (fullname,
    { st with
      figures_counter := st.figures_counter + 1,
      fs := writeFile st.fs st.files_dir figname fdata })

/-- A sequence of figure extractions in one session; returns the paths in
call order together with the final session state. -/
def runFigures (st : Session) : List (String × String) → List String × Session
  | [] => ([], st)
  | (d, f) :: ps =>
    let (p, st') := new_figure st d f
    let (rest, stf) := runFigures st' ps
    (p :: rest, stf)

/-- Embedding of `Converter.__init__`: the asset directory `<infile_dir>/<root>_files` is
created if absent; the figure counter starts at 0.  (Splitting `infile` into
directory and base name is done by `os.path`, external to the core; the two
components are taken as inputs here.) -/
def converter_init (fs : FS) (infile_dir infile_root : String) : Session :=
  let files_dir := infile_dir ++ "/" ++ (infile_root ++ "_files")
  let fs' := if files_dir ∈ fs.dirs then fs else { fs with dirs := files_dir :: fs.dirs }
  { infile_root := infile_root, files_dir := files_dir, figures_counter := 0, fs := fs' }

/-- Embedding of `Converter.__del__`: remove the asset directory on teardown if it exists
and is empty. -/
def converter_del (st : Session) : FS :=
  if st.files_dir ∈ st.fs.dirs ∧ listdir st.fs st.files_dir = [] then
    { st.fs with dirs := st.fs.dirs.erase st.files_dir }
  else st.fs

/-- Whole session lifecycle for the figure-extraction side effects:
`__init__`, a sequence of `_new_figure` calls, `__del__`. -/
def sessionRun (fs : FS) (infile_dir infile_root : String)
    (ps : List (String × String)) : FS :=
  converter_del (runFigures (converter_init fs infile_dir infile_root) ps).2

--------------------------------------------------------------------------
-- The converter object: method tables and abstract renderer hooks
--------------------------------------------------------------------------

/-- First-match lookup in an association list; models `getattr(self, key,
default)` over the methods present on a concrete converter object. -/
def lookupA {α : Type} (l : List (String × α)) (k : String) : Option α :=
  (l.find? (fun e => e.1 == k)).map (·.2)

/-- A concrete converter object (the base class together with whatever a
format subclass registers).  The association lists record the methods the
object exposes under the dispatch naming schemes; entries may raise
(`Except.error`), which models the base class's `NotImplementedError`
defaults. -/
structure ConverterImpl where
  /-- methods named `render_<kind>`, keyed by `<kind>` -/
  render_methods : List (String × (Cell → Except String (List String)))
  /-- methods named `render_display_format_<tag>`, keyed by `<tag>` -/
  display_methods : List (String × (Output → Except String (List String)))
  /-- format-specific image methods named `_<fmt>_lines`, keyed by `<fmt>` -/
  fmt_lines : List (String × (String → Except String (List String)))
  /-- the method `_img_lines`: generic image-inclusion renderer -/
  img_lines : String → Except String (List String)
  /-- the method `_unknown_lines`: the format's unknown-content renderer -/
  unknown_lines : String → Except String (List String)
  /-- the method `optional_header()` (base returns `[]`) -/
  optional_header : List String
  /-- the method `optional_footer()` (base returns `[]`) -/
  optional_footer : List String

/-- Model of `pprint.pformat` on a cell (external stdlib; the exact text is
irrelevant to the engine, which hands it to `_unknown_lines`). -/
def pformatCell (c : Cell) : String :=
  "Cell(" ++ c.cell_type ++ ", " ++ c.content ++ ")"

/-- Model of `pprint.pformat` on an output node. -/
def pformatOut (out : Output) : String :=
  "Output(" ++ String.intercalate ", " (out.map (fun e => e.1 ++ "=" ++ e.2)) ++ ")"

/-- Embedding of `Converter.render_unknown_display(output, type)`: warn, then hand the
pretty-printed node to `_unknown_lines`.  NOTE the two value parameters: this
is the method's actual signature in the source. -/
def render_unknown_display (impl : ConverterImpl) (out : Output) (_ty : String) :
    List String × Except String (List String) :=
  (["Unknown output: " ++ outputTypeOf out], impl.unknown_lines (pformatOut out))

/-- Result of `dispatch` for cells: either a registered `render_<kind>`
method, or the bound `render_unknown` fallback. -/
inductive CellFn where
  | method (f : Cell → Except String (List String))
  | unknown

/-- Embedding of `Converter.dispatch(cell_type)`: `getattr(self, 'render_' + cell_type,
self.render_unknown)`. -/
def dispatch (impl : ConverterImpl) (cell_type : String) : CellFn :=
  match lookupA impl.render_methods cell_type with
  | some f => .method f
  | none => .unknown

/-- Result of `dispatch_display_format`: either a registered unary
`render_display_format_<tag>` method, or the bound `render_unknown_display`
fallback — which takes TWO value arguments. -/
inductive DispFn where
  | unary (f : Output → Except String (List String))
  | binary (f : Output → String → List String × Except String (List String))

/-- Embedding of `Converter.dispatch_display_format(format)`: `getattr(self,
'render_display_format_' + format, self.render_unknown_display)`. -/
def dispatch_display_format (impl : ConverterImpl) (fmt : String) : DispFn :=
  match lookupA impl.display_methods fmt with
  | some f => .unary f
  | none => .binary (render_unknown_display impl)

--------------------------------------------------------------------------
-- Cell preprocessing and rendering
--------------------------------------------------------------------------

/-- Modelled from the spec: `converters/utils.remove_fake_files_url` is not
under `src/`; the spec describes it as an unconditional pre-processing hook
that strips internal fake-files URL markers from the cell content in place
(spec section 4.3).  Modelled as deleting every occurrence of the marker
`/files/` from the content; only the content field is touched. -/
def remove_fake_files_url (c : Cell) : Cell :=
  { c with content := String.mk (stripMarker c.content.data) }

/-- The in-place mutation `main_body` performs on a cell before rendering it:
`remove_fake_files_url` for markdown and raw cells, nothing otherwise. -/
def preprocessCell (c : Cell) : Cell :=
  if c.cell_type = "markdown" ∨ c.cell_type = "raw" then remove_fake_files_url c else c

/-- One cell through dispatch and rendering, as `main_body` performs it:
dispatch on the kind tag, mutate markdown/raw content, invoke the renderer
(the `render_unknown` fallback warns and pretty-prints).  Returns the warning
log and the rendered line buffer (or the raised exception). -/
def cellRender (impl : ConverterImpl) (c : Cell) :
    List String × Except String (List String) :=
  let c' := preprocessCell c
  match dispatch impl c.cell_type with
  | .method f => ([], f c')
  | .unknown =>
    (["Unknown cell: " ++ c'.cell_type], impl.unknown_lines (pformatCell c'))

/-- One loop iteration of `main_body`: render the cell and join its line
buffer with `'\n'`; also propagate the mutated cell. -/
def processCell (impl : ConverterImpl) (c : Cell) :
    List String × Except String (Cell × String) :=
  let (w, r) := cellRender impl c
  (w, r.map (fun ls => (preprocessCell c, pyJoin "\n" ls)))

/-- The inner loop of `main_body` over the cells of one worksheet: collects
the mutated cells and the per-cell joined strings (`converted_cells`). -/
def runCells (impl : ConverterImpl) : List Cell →
    List String × Except String (List Cell × List String)
  | [] => ([], .ok ([], []))
  | c :: cs =>
    let (w, r) := processCell impl c
    match r with
    | .error e => (w, .error e)
    | .ok (c', s) =>
      let (w2, r2) := runCells impl cs
      (w ++ w2,
        match r2 with
        | .error e => .error e
        | .ok (cs', ss) => .ok (c' :: cs', s :: ss))

/-- The outer loop of `main_body` over worksheets. -/
def runWorksheets (impl : ConverterImpl) : List Worksheet →
    List String × Except String (List Worksheet × List String)
  | [] => ([], .ok ([], []))
  | ws :: rest =>
    let (w, r) := runCells impl ws.cells
    match r with
    | .error e => (w, .error e)
    | .ok (cs', ss) =>
      let (w2, r2) := runWorksheets impl rest
      (w ++ w2,
        match r2 with
        | .error e => .error e
        | .ok (rest', ss2) => .ok (Worksheet.mk cs' :: rest', ss ++ ss2))

/-- Embedding of `Converter.main_body(cell_separator)`: render every cell of every
worksheet in order, join each cell's lines with `'\n'`, concatenate the
per-cell strings with the separator and re-split on `'\n'`.  Returns the
warning log, the mutated document and the resulting line buffer. -/
def main_body (impl : ConverterImpl) (nb : Notebook) (sep : String) :
    List String × Except String (Notebook × List String) :=
  let (w, r) := runWorksheets impl nb.worksheets
  (w, r.map (fun p => (Notebook.mk p.1, pySplitNl (pyJoin sep p.2))))

/-- Embedding of `Converter.convert(cell_separator)`: `optional_header() ++
main_body(cell_separator) ++ optional_footer()`, joined with `'\n'`. -/
def convert (impl : ConverterImpl) (nb : Notebook) (sep : String) :
    List String × Except String (Notebook × String) :=
  let (w, r) := main_body impl nb sep
  (w, r.map (fun p =>
    (p.1, pyJoin "\n" (impl.optional_header ++ p.2 ++ impl.optional_footer))))

--------------------------------------------------------------------------
-- render_display_data
--------------------------------------------------------------------------

/-- Is the tag one of the image formats `['png', 'svg', 'jpg', 'pdf']`? -/
def isImage (fmt : String) : Bool :=
  fmt == "png" || fmt == "svg" || fmt == "jpg" || fmt == "pdf"

/-- The image-inclusion renderer chosen for `fmt`: `getattr(self,
'_%s_lines' % fmt, None)` if present (truthy), else `self._img_lines`. -/
def imgFun (impl : ConverterImpl) (fmt : String) : String → Except String (List String) :=
  (lookupA impl.fmt_lines fmt).getD impl.img_lines

/-- The loop of `Converter.render_display_data` over `output.keys()`, with
the `lines` accumulator threaded exactly as in the source.  A call of the
two-parameter `render_unknown_display` fallback with the single argument
`output` raises a `TypeError`. -/
def rdd_loop (impl : ConverterImpl) (out : Output) :
    List String → Session → List String → Except String (List String × Session)
  | [], st, lines => .ok (lines, st)
  | fmt :: rest, st, lines =>
    if isImage fmt then
      match imgFun impl fmt (new_figure st (outGet out fmt) fmt).1 with
      | .error e => .error e
      | .ok ls => rdd_loop impl out rest (new_figure st (outGet out fmt) fmt).2 (lines ++ ls)
    else if fmt = "output_type" then
      rdd_loop impl out rest st lines
    else
      match dispatch_display_format impl fmt with
      | .unary f =>
        match f out with
        | .error e => .error e
        | .ok ls => rdd_loop impl out rest st (lines ++ ls)
      | .binary _ =>
        .error "TypeError: render_unknown_display() takes exactly 3 arguments (2 given)"

/-- Embedding of `Converter.render_display_data(output)` (threading the session state the
figure extractor mutates). -/
def render_display_data (impl : ConverterImpl) (st : Session) (out : Output) :
    Except String (List String × Session) :=
  rdd_loop impl out (out.map (·.1)) st []

/-- Embedding of `Converter.render_stream(output)`: the body is exactly a call of
`self.render_display_format_text(output)`, resolved on the object. -/
def render_stream (impl : ConverterImpl) (out : Output) : Except String (List String) :=
  match lookupA impl.display_methods "text" with
  | some f => f out
  | none => .error "AttributeError: render_display_format_text"

/-- The method `self.render_display_format_text`, resolved on the object and
applied to an output. -/
def render_display_format_text_m (impl : ConverterImpl) (out : Output) :
    Except String (List String) :=
  match lookupA impl.display_methods "text" with
  | some f => f out
  | none => .error "AttributeError: render_display_format_text"

--------------------------------------------------------------------------
-- Spec-side definitions (statements of the claims, in the spec's words)
--------------------------------------------------------------------------

/-- The body line sequence as claim C1 words it, given the rendered line
list `r c` of each cell: join each cell's lines with `'\n'`, concatenate all
per-cell strings with the separator, re-split on `'\n'`. -/
def mainBodySpec (nb : Notebook) (sep : String) (r : Cell → List String) : List String :=
  pySplitNl (pyJoin sep ((allCells nb).map (fun c => pyJoin "\n" (r c))))

/-- The document as it stands after a `convert` call: every cell passed
through the pre-processing hook (which touches only markdown/raw content). -/
def afterNb (nb : Notebook) : Notebook :=
  Notebook.mk (nb.worksheets.map (fun ws => Worksheet.mk (ws.cells.map preprocessCell)))

/-- Display-data rendering as claim C2 words it: per format tag, image tags
go through the figure extractor and then the preferred image-inclusion
renderer, the literal `output_type` key is skipped, every other tag is
resolved in the display-format table and its renderer invoked; the resulting
line lists are concatenated in iteration order. -/
def displayDataSpec (impl : ConverterImpl) (out : Output) :
    List String → Session → Except String (List String × Session)
  | [], st => .ok ([], st)
  | fmt :: rest, st =>
    if isImage fmt then
      match imgFun impl fmt (new_figure st (outGet out fmt) fmt).1 with
      | .error e => .error e
      | .ok ls =>
        match displayDataSpec impl out rest (new_figure st (outGet out fmt) fmt).2 with
        | .error e => .error e
        | .ok (more, st2) => .ok (ls ++ more, st2)
    else if fmt = "output_type" then displayDataSpec impl out rest st
    else
      match lookupA impl.display_methods fmt with
      | none => .error "unregistered display format tag"
      | some f =>
        match f out with
        | .error e => .error e
        | .ok ls =>
          match displayDataSpec impl out rest st with
          | .error e => .error e
          | .ok (more, st2) => .ok (ls ++ more, st2)

/-- Decidable success test for the renderer registered under `fmt`. -/
def displayOk (impl : ConverterImpl) (out : Output) (fmt : String) : Bool :=
  ((lookupA impl.display_methods fmt).map (fun f => (f out).isOk)).getD false

/-- The figure paths the extractor is specified to produce from counter
value `c` on: the `k`-th one embeds counter value `c + k`. -/
def expectedPaths (dir root : String) : Nat → List (String × String) → List String
  | _, [] => []
  | c, (_, f) :: ps => mkFullname dir root c f :: expectedPaths dir root (c + 1) ps

/-- Numeric value of a decimal digit string (used to invert `pad2`). -/
def decVal (l : List Char) : Nat :=
  l.foldl (fun a c => a * 10 + (c.toNat - 48)) 0

/-- Invariant of a running session: every file already present in the asset
directory is a figure file of an earlier counter value. -/
def goodInv (st : Session) : Prop :=
  ∀ e ∈ st.fs.files, e.1 = st.files_dir →
    ∃ j f, j < st.figures_counter ∧ e.2.1 = mkFigname st.infile_root j f

--------------------------------------------------------------------------
-- Concrete test fixtures (used by witnesses and counterexamples)
--------------------------------------------------------------------------

/-- A small concrete format implementation: markdown/code renderers, a
`text` display renderer plus the base class's unimplemented display
renderers, a generic image renderer and an unknown-content renderer. -/
def implT : ConverterImpl where
  render_methods := [("markdown", fun c => Except.ok [c.content]),
                     ("code", fun c => Except.ok [c.content])]
  display_methods := [("text", fun o => Except.ok [outGet o "text"]),
                      ("html", fun _ => Except.error "NotImplementedError"),
                      ("latex", fun _ => Except.error "NotImplementedError"),
                      ("json", fun _ => Except.error "NotImplementedError"),
                      ("javascript", fun _ => Except.error "NotImplementedError")]
  fmt_lines := []
  img_lines := fun p => Except.ok ["img: " ++ p]
  unknown_lines := fun s => Except.ok ["unk: " ++ s]
  optional_header := []
  optional_footer := []

/-- A fresh session on an empty file system. -/
def sessT : Session := converter_init (FS.mk [] []) "d" "nb"

/-- Two ordinary cells. -/
def nbT1 : Notebook :=
  Notebook.mk [Worksheet.mk [Cell.mk "markdown" "hi" [], Cell.mk "code" "x = 1" []]]

/-- One cell of an unregistered kind. -/
def nbT4 : Notebook := Notebook.mk [Worksheet.mk [Cell.mk "mystery" "m" []]]

/-- One markdown cell whose content carries a fake-files URL marker. -/
def nbT9 : Notebook := Notebook.mk [Worksheet.mk [Cell.mk "markdown" "/files/a.png" []]]

/-- The document `nbT9` after the pre-processing hook stripped the marker. -/
def nbT9b : Notebook := Notebook.mk [Worksheet.mk [Cell.mk "markdown" "a.png" []]]

/-- A display-data output with an image tag and a text tag. -/
def outT2 : Output := [("output_type", "display_data"), ("png", "QUJD"), ("text", "hi")]

/-- A display-data output with an unregistered format tag. -/
def outT3 : Output := [("output_type", "display_data"), ("foo", "bar")]

--------------------------------------------------------------------------
-- Lemmas: decimal rendering and figure-name injectivity
--------------------------------------------------------------------------

theorem digitChar_toNat {d : Nat} (h : d < 10) : (Nat.digitChar d).toNat = 48 + d := by
  interval_cases d <;> rfl

theorem digitChar_ne_dot {d : Nat} (h : d < 10) : Nat.digitChar d ≠ '.' := by
  interval_cases d <;> decide

theorem dig_mem : ∀ (f n : Nat), ∀ c ∈ dig f n, ∃ d, d < 10 ∧ c = Nat.digitChar d := by
  intro f
  induction f with
  | zero => intro n c hc; simp [dig] at hc
  | succ f ih =>
    intro n c hc
    by_cases h10 : n < 10
    · simp [dig, h10] at hc
      exact ⟨n, h10, hc⟩
    · simp [dig, h10, List.mem_append] at hc
      rcases hc with hc | hc
      · exact ih _ c hc
      · exact ⟨n % 10, Nat.mod_lt _ (by omega), hc⟩

theorem decVal_append_singleton (a : List Char) (c : Char) :
    decVal (a ++ [c]) = decVal a * 10 + (c.toNat - 48) := by
  simp [decVal, List.foldl_append]

theorem dig_val : ∀ (f n : Nat), n < f → decVal (dig f n) = n := by
  intro f
  induction f with
  | zero => intro n h; omega
  | succ f ih =>
    intro n h
    by_cases h10 : n < 10
    · simp [dig, h10, decVal]
      rw [digitChar_toNat h10]
      omega
    · have hdiv : n / 10 < n := Nat.div_lt_self (by omega) (by omega)
      have hf : n / 10 < f := by omega
      simp only [dig, if_neg h10]
      rw [decVal_append_singleton, ih _ hf, digitChar_toNat (Nat.mod_lt _ (by omega))]
      omega

theorem decVal_decRepr (n : Nat) : decVal (decRepr n) = n :=
  dig_val _ _ (Nat.lt_succ_self n)

theorem decVal_cons_zero (l : List Char) : decVal ('0' :: l) = decVal l := by
  simp only [decVal, List.foldl_cons]
  have h0 : (0 * 10 + ('0'.toNat - 48)) = 0 := by decide
  rw [h0]

theorem decVal_pad2 (n : Nat) : decVal (pad2 n) = n := by
  by_cases h : n < 10
  · simp only [pad2, if_pos h]
    rw [decVal_cons_zero, decVal_decRepr]
  · simp only [pad2, if_neg h]
    exact decVal_decRepr n

theorem pad2_inj {m n : Nat} (h : pad2 m = pad2 n) : m = n := by
  have := congrArg decVal h
  simpa [decVal_pad2] using this

theorem dot_not_mem_dig (f n : Nat) : '.' ∉ dig f n := by
  intro hmem
  obtain ⟨d, hd, hc⟩ := dig_mem f n '.' hmem
  exact digitChar_ne_dot hd hc.symm

theorem dot_not_mem_pad2 (n : Nat) : '.' ∉ pad2 n := by
  by_cases h : n < 10
  · simp only [pad2, if_pos h]
    intro hmem
    rcases List.mem_cons.mp hmem with hc | hc
    · exact absurd hc (by decide)
    · exact dot_not_mem_dig _ _ hc
  · simp only [pad2, if_neg h]
    exact dot_not_mem_dig _ _

theorem append_dot_cancel :
    ∀ (a a' b b' : List Char), '.' ∉ a → '.' ∉ a' →
      a ++ '.' :: b = a' ++ '.' :: b' → a = a' ∧ b = b' := by
  intro a
  induction a with
  | nil =>
    intro a' b b' _ ha' h
    cases a' with
    | nil => simpa using h
    | cons x xs =>
      simp only [List.nil_append, List.cons_append, List.cons.injEq] at h
      exact absurd h.1.symm (fun hx => ha' (hx ▸ List.mem_cons_self x xs))
  | cons y ys ih =>
    intro a' b b' ha ha' h
    cases a' with
    | nil =>
      simp only [List.cons_append, List.nil_append, List.cons.injEq] at h
      exact absurd h.1 (fun hy => ha (hy ▸ List.mem_cons_self y ys))
    | cons x xs =>
      simp only [List.cons_append, List.cons.injEq] at h
      obtain ⟨hyx, hrest⟩ := h
      have hys : '.' ∉ ys := fun hm => ha (List.mem_cons_of_mem _ hm)
      have hxs : '.' ∉ xs := fun hm => ha' (List.mem_cons_of_mem _ hm)
      obtain ⟨he, hb⟩ := ih xs b b' hys hxs hrest
      exact ⟨by rw [hyx, he], hb⟩

theorem data_append (s t : String) : (s ++ t).data = s.data ++ t.data := by
  cases s; cases t; rfl

theorem data_inj {s t : String} (h : s.data = t.data) : s = t := by
  cases s; cases t; exact congrArg String.mk h

theorem pad2Str_data (n : Nat) : (pad2Str n).data = pad2 n := rfl

theorem dot_data : (".").data = ['.'] := rfl

theorem mkFigname_inj {root f1 f2 : String} {m n : Nat}
    (h : mkFigname root m f1 = mkFigname root n f2) : m = n := by
  have hd := congrArg String.data h
  simp only [mkFigname, data_append, pad2Str_data, dot_data, List.append_assoc,
    List.singleton_append] at hd
  have h1 := List.append_cancel_left hd
  have h2 := List.append_cancel_left h1
  exact pad2_inj (append_dot_cancel _ _ _ _ (dot_not_mem_pad2 m) (dot_not_mem_pad2 n) h2).1

theorem mkFullname_inj {dir root f1 f2 : String} {m n : Nat}
    (h : mkFullname dir root m f1 = mkFullname dir root n f2) : m = n := by
  have hd := congrArg String.data h
  simp only [mkFullname, data_append, List.append_assoc] at hd
  have h1 := List.append_cancel_left hd
  have h2 := List.append_cancel_left h1
  exact mkFigname_inj (data_inj h2)

--------------------------------------------------------------------------
-- Lemmas: the figure extractor
--------------------------------------------------------------------------

theorem runFigures_nil (st : Session) : runFigures st [] = ([], st) := rfl

theorem runFigures_cons (st : Session) (d f : String) (ps : List (String × String)) :
    runFigures st ((d, f) :: ps) =
      ((new_figure st d f).1 :: (runFigures (new_figure st d f).2 ps).1,
       (runFigures (new_figure st d f).2 ps).2) := rfl

theorem new_figure_path (st : Session) (d f : String) :
    (new_figure st d f).1 = mkFullname st.files_dir st.infile_root st.figures_counter f := rfl

theorem new_figure_counter (st : Session) (d f : String) :
    (new_figure st d f).2.figures_counter = st.figures_counter + 1 := rfl

theorem new_figure_root (st : Session) (d f : String) :
    (new_figure st d f).2.infile_root = st.infile_root := rfl

theorem new_figure_dir (st : Session) (d f : String) :
    (new_figure st d f).2.files_dir = st.files_dir := rfl

theorem new_figure_dirs (st : Session) (d f : String) :
    (new_figure st d f).2.fs.dirs = st.fs.dirs := rfl

theorem new_figure_fs (st : Session) (d f : String) :
    (new_figure st d f).2.fs =
      writeFile st.fs st.files_dir (mkFigname st.infile_root st.figures_counter f)
        (if f = "png" ∨ f = "jpg" ∨ f = "pdf" then FileData.binary (base64Decode d)
         else FileData.text d default_encoding) := rfl

theorem runFigures_counter : ∀ (ps : List (String × String)) (st : Session),
    (runFigures st ps).2.figures_counter = st.figures_counter + ps.length := by
  intro ps
  induction ps with
  | nil => intro st; rfl
  | cons p ps ih =>
    intro st
    obtain ⟨d, f⟩ := p
    rw [runFigures_cons]
    simp only [List.length_cons]
    rw [ih, new_figure_counter]
    omega

theorem runFigures_files_dir : ∀ (ps : List (String × String)) (st : Session),
    (runFigures st ps).2.files_dir = st.files_dir := by
  intro ps
  induction ps with
  | nil => intro st; rfl
  | cons p ps ih =>
    intro st
    obtain ⟨d, f⟩ := p
    rw [runFigures_cons]
    rw [ih, new_figure_dir]

theorem runFigures_root : ∀ (ps : List (String × String)) (st : Session),
    (runFigures st ps).2.infile_root = st.infile_root := by
  intro ps
  induction ps with
  | nil => intro st; rfl
  | cons p ps ih =>
    intro st
    obtain ⟨d, f⟩ := p
    rw [runFigures_cons]
    rw [ih, new_figure_root]

theorem runFigures_dirs : ∀ (ps : List (String × String)) (st : Session),
    (runFigures st ps).2.fs.dirs = st.fs.dirs := by
  intro ps
  induction ps with
  | nil => intro st; rfl
  | cons p ps ih =>
    intro st
    obtain ⟨d, f⟩ := p
    rw [runFigures_cons]
    rw [ih]
    exact new_figure_dirs st d f

theorem runFigures_paths : ∀ (ps : List (String × String)) (st : Session),
    (runFigures st ps).1 = expectedPaths st.files_dir st.infile_root st.figures_counter ps := by
  intro ps
  induction ps with
  | nil => intro st; rfl
  | cons p ps ih =>
    intro st
    obtain ⟨d, f⟩ := p
    rw [runFigures_cons]
    simp only [expectedPaths]
    refine congrArg₂ List.cons (new_figure_path st d f) ?_
    rw [ih]
    rfl

theorem expectedPaths_mem : ∀ (ps : List (String × String)) (dir root : String) (c : Nat)
    (x : String), x ∈ expectedPaths dir root c ps → ∃ j f, c ≤ j ∧ x = mkFullname dir root j f := by
  intro ps
  induction ps with
  | nil => intro dir root c x hx; simp [expectedPaths] at hx
  | cons p ps ih =>
    intro dir root c x hx
    obtain ⟨d, f⟩ := p
    simp only [expectedPaths, List.mem_cons] at hx
    rcases hx with h | h
    · exact ⟨c, f, Nat.le_refl c, h⟩
    · obtain ⟨j, g, hj, he⟩ := ih dir root (c + 1) x h
      exact ⟨j, g, by omega, he⟩

theorem expectedPaths_pairwise : ∀ (ps : List (String × String)) (dir root : String) (c : Nat),
    (expectedPaths dir root c ps).Pairwise (fun a b => a ≠ b) := by
  intro ps
  induction ps with
  | nil => intro dir root c; simp [expectedPaths]
  | cons p ps ih =>
    intro dir root c
    obtain ⟨d, f⟩ := p
    simp only [expectedPaths]
    refine List.Pairwise.cons ?_ (ih dir root (c + 1))
    intro y hy hEq
    obtain ⟨j, g, hj, he⟩ := expectedPaths_mem ps dir root (c + 1) y hy
    rw [he] at hEq
    have := mkFullname_inj hEq
    omega

--------------------------------------------------------------------------
-- Lemmas: asset directory contents
--------------------------------------------------------------------------

theorem listdir_writeFile_self (fs : FS) (dirn name : String) (b : FileData)
    (h : ∀ e ∈ fs.files, e.1 = dirn → e.2.1 ≠ name) :
    listdir (writeFile fs dirn name b) dirn = listdir fs dirn ++ [(dirn, name, b)] := by
  have hfilter : fs.files.filter (fun e => !(e.1 == dirn && e.2.1 == name)) = fs.files := by
    refine List.filter_eq_self.mpr ?_
    intro e he
    by_cases hd : e.1 = dirn
    · simp [hd, h e he hd]
    · simp [hd]
  unfold listdir writeFile
  simp only [List.filter_append, hfilter]
  simp

theorem writeFile_files_of_fresh (fs : FS) (dirn name : String) (b : FileData)
    (h : ∀ e ∈ fs.files, e.1 = dirn → e.2.1 ≠ name) :
    (writeFile fs dirn name b).files = fs.files ++ [(dirn, name, b)] := by
  have hfilter : fs.files.filter (fun e => !(e.1 == dirn && e.2.1 == name)) = fs.files := by
    refine List.filter_eq_self.mpr ?_
    intro e he
    by_cases hd : e.1 = dirn
    · simp [hd, h e he hd]
    · simp [hd]
  unfold writeFile
  simp only [hfilter]

theorem goodInv_fresh {st : Session} (hinv : goodInv st) (f : String) :
    ∀ e ∈ st.fs.files, e.1 = st.files_dir →
      e.2.1 ≠ mkFigname st.infile_root st.figures_counter f := by
  intro e he hd heq
  obtain ⟨j, g, hj, hn⟩ := hinv e he hd
  rw [hn] at heq
  have := mkFigname_inj heq
  omega

theorem new_figure_inv {st : Session} (hinv : goodInv st) (d f : String) :
    goodInv (new_figure st d f).2 ∧
      (listdir (new_figure st d f).2.fs st.files_dir).length =
        (listdir st.fs st.files_dir).length + 1 := by
  have hfresh := goodInv_fresh hinv f
  constructor
  · intro e he hd
    rw [new_figure_fs] at he
    rw [writeFile_files_of_fresh _ _ _ _ hfresh] at he
    rw [new_figure_dir] at hd
    rw [new_figure_root, new_figure_counter]
    rcases List.mem_append.mp he with hold | hnew
    · obtain ⟨j, g, hj, hn⟩ := hinv e hold hd
      exact ⟨j, g, by omega, hn⟩
    · have : e = (st.files_dir, mkFigname st.infile_root st.figures_counter f,
        if f = "png" ∨ f = "jpg" ∨ f = "pdf" then FileData.binary (base64Decode d)
        else FileData.text d default_encoding) := by simpa using hnew
      refine ⟨st.figures_counter, f, by omega, ?_⟩
      rw [this]
  · rw [new_figure_fs, listdir_writeFile_self _ _ _ _ hfresh]
    simp

theorem readFile_writeFile (fs : FS) (dirn name : String) (b : FileData) :
    readFile (writeFile fs dirn name b) dirn name = some b := by
  unfold readFile writeFile
  have hnone : (fs.files.filter (fun e => !(e.1 == dirn && e.2.1 == name))).find?
      (fun e => e.1 == dirn && e.2.1 == name) = none := by
    rw [List.find?_eq_none]
    intro x hx
    have h2 := (List.mem_filter.mp hx).2
    simp only [Bool.not_eq_true'] at h2
    simp [h2]
  rw [List.find?_append, hnone]
  simp

theorem runFigures_inv : ∀ (ps : List (String × String)) (st : Session), goodInv st →
    goodInv (runFigures st ps).2 ∧
      (listdir (runFigures st ps).2.fs st.files_dir).length =
        (listdir st.fs st.files_dir).length + ps.length := by
  intro ps
  induction ps with
  | nil => intro st h; exact ⟨h, rfl⟩
  | cons p ps ih =>
    intro st h
    obtain ⟨d, f⟩ := p
    rw [runFigures_cons]
    obtain ⟨hinv1, hlen1⟩ := new_figure_inv h d f
    obtain ⟨hinv2, hlen2⟩ := ih (new_figure st d f).2 hinv1
    refine ⟨hinv2, ?_⟩
    rw [new_figure_dir] at hlen2
    simp only [List.length_cons]
    rw [hlen2, hlen1]
    omega

theorem converter_init_files (fs : FS) (idir root : String) :
    (converter_init fs idir root).fs.files = fs.files := by
  by_cases h : (idir ++ "/" ++ (root ++ "_files")) ∈ fs.dirs <;> simp [converter_init, h]

theorem converter_init_files_dir (fs : FS) (idir root : String) :
    (converter_init fs idir root).files_dir = idir ++ "/" ++ (root ++ "_files") := rfl

theorem converter_init_counter (fs : FS) (idir root : String) :
    (converter_init fs idir root).figures_counter = 0 := rfl

theorem converter_init_dir_mem (fs : FS) (idir root : String) :
    (idir ++ "/" ++ (root ++ "_files")) ∈ (converter_init fs idir root).fs.dirs := by
  by_cases h : (idir ++ "/" ++ (root ++ "_files")) ∈ fs.dirs <;> simp [converter_init, h]

theorem converter_init_dirs_of_absent (fs : FS) (idir root : String)
    (h : (idir ++ "/" ++ (root ++ "_files")) ∉ fs.dirs) :
    (converter_init fs idir root).fs.dirs = (idir ++ "/" ++ (root ++ "_files")) :: fs.dirs := by
  simp [converter_init, h]

--------------------------------------------------------------------------
-- Lemmas: length of the zero-padded index
--------------------------------------------------------------------------

theorem dig_len_ge_one : ∀ (f n : Nat), n < f → 1 ≤ (dig f n).length := by
  intro f n h
  match f with
  | 0 => omega
  | f + 1 =>
    by_cases h10 : n < 10
    · simp [dig, h10]
    · simp [dig, h10]

theorem dig_eq_single {f n : Nat} (hf : 0 < f) (h10 : n < 10) :
    dig f n = [Nat.digitChar n] := by
  match f with
  | 0 => omega
  | f + 1 => simp [dig, h10]

theorem dig_len_two {f n : Nat} (h : n < f) (h10 : 10 ≤ n) : 2 ≤ (dig f n).length := by
  match f with
  | 0 => omega
  | f + 1 =>
    have hdiv : n / 10 < n := Nat.div_lt_self (by omega) (by omega)
    have h1 := dig_len_ge_one f (n / 10) (by omega)
    simp only [dig, if_neg (by omega : ¬ n < 10), List.length_append, List.length_cons,
      List.length_nil]
    omega

theorem pad2_len_two {n : Nat} (h : n < 100) : (pad2 n).length = 2 := by
  by_cases h10 : n < 10
  · simp only [pad2, if_pos h10, decRepr, List.length_cons]
    rw [dig_eq_single (by omega) h10]
    rfl
  · simp only [pad2, if_neg h10, decRepr]
    show (dig (n + 1) n).length = 2
    simp only [dig, if_neg h10, List.length_append, List.length_cons, List.length_nil]
    rw [dig_eq_single (by omega : 0 < n) (by omega : n / 10 < 10)]
    rfl

theorem pad2_len_ge_three {n : Nat} (h : 100 ≤ n) : 3 ≤ (pad2 n).length := by
  simp only [pad2, if_neg (by omega : ¬ n < 10), decRepr]
  show 3 ≤ (dig (n + 1) n).length
  have hdiv : n / 10 < n := Nat.div_lt_self (by omega) (by omega)
  have h2 := dig_len_two (f := n) (n := n / 10) (by omega) (by omega)
  simp only [dig, if_neg (by omega : ¬ n < 10), List.length_append, List.length_cons,
    List.length_nil]
  omega

theorem expectedPaths_getD : ∀ (ps : List (String × String)) (dir root : String) (c k : Nat),
    k < ps.length →
    (expectedPaths dir root c ps).getD k "" = mkFullname dir root (c + k) (ps.getD k ("", "")).2 := by
  intro ps
  induction ps with
  | nil => intro dir root c k hk; simp at hk
  | cons p ps ih =>
    intro dir root c k hk
    obtain ⟨d, f⟩ := p
    match k with
    | 0 => simp [expectedPaths]
    | k + 1 =>
      simp only [expectedPaths, List.getD_cons_succ]
      rw [ih dir root (c + 1) k (by simpa using hk)]
      congr 1
      omega

--------------------------------------------------------------------------
-- Lemmas: cell preprocessing and the main_body loops
--------------------------------------------------------------------------

theorem preprocess_cell_type (c : Cell) : (preprocessCell c).cell_type = c.cell_type := by
  unfold preprocessCell remove_fake_files_url
  split <;> rfl

theorem preprocess_outputs (c : Cell) : (preprocessCell c).outputs = c.outputs := by
  unfold preprocessCell remove_fake_files_url
  split <;> rfl

theorem preprocess_other {c : Cell}
    (h : ¬(c.cell_type = "markdown" ∨ c.cell_type = "raw")) : preprocessCell c = c := by
  unfold preprocessCell
  rw [if_neg h]

theorem processCell_eq (impl : ConverterImpl) (c : Cell) :
    processCell impl c = ((cellRender impl c).1,
      Except.map (fun ls => (preprocessCell c, pyJoin "\n" ls)) (cellRender impl c).2) := rfl

theorem main_body_eq (impl : ConverterImpl) (nb : Notebook) (sep : String) :
    main_body impl nb sep =
      ((runWorksheets impl nb.worksheets).1,
        Except.map (fun p => (Notebook.mk p.1, pySplitNl (pyJoin sep p.2)))
          (runWorksheets impl nb.worksheets).2) := rfl

theorem convert_eq (impl : ConverterImpl) (nb : Notebook) (sep : String) :
    convert impl nb sep =
      ((main_body impl nb sep).1,
        Except.map
          (fun p => (p.1, pyJoin "\n" (impl.optional_header ++ p.2 ++ impl.optional_footer)))
          (main_body impl nb sep).2) := rfl

theorem runCells_ok (impl : ConverterImpl) (r : Cell → List String) :
    ∀ (cs : List Cell), (∀ c ∈ cs, (cellRender impl c).2 = Except.ok (r c)) →
    runCells impl cs = ((cs.map (fun c => (cellRender impl c).1)).flatten,
      Except.ok (cs.map preprocessCell, cs.map (fun c => pyJoin "\n" (r c)))) := by
  intro cs
  induction cs with
  | nil => intro h; rfl
  | cons c cs ih =>
    intro h
    have hc := h c (List.mem_cons_self c cs)
    have hcs : ∀ x ∈ cs, (cellRender impl x).2 = Except.ok (r x) :=
      fun x hx => h x (List.mem_cons_of_mem c hx)
    have hp : processCell impl c
        = ((cellRender impl c).1, Except.ok (preprocessCell c, pyJoin "\n" (r c))) := by
      rw [processCell_eq, hc]
      rfl
    show runCells impl (c :: cs) = _
    unfold runCells
    rw [hp, ih hcs]
    simp

theorem runWorksheets_ok (impl : ConverterImpl) (r : Cell → List String) :
    ∀ (wss : List Worksheet),
    (∀ c ∈ (wss.map Worksheet.cells).flatten, (cellRender impl c).2 = Except.ok (r c)) →
    runWorksheets impl wss =
      (((wss.map Worksheet.cells).flatten.map (fun c => (cellRender impl c).1)).flatten,
       Except.ok (wss.map (fun ws => Worksheet.mk (ws.cells.map preprocessCell)),
            (wss.map Worksheet.cells).flatten.map (fun c => pyJoin "\n" (r c)))) := by
  intro wss
  induction wss with
  | nil => intro h; rfl
  | cons ws wss ih =>
    intro h
    have hws : ∀ c ∈ ws.cells, (cellRender impl c).2 = Except.ok (r c) := fun c hc =>
      h c (by rw [List.map_cons, List.flatten_cons]; exact List.mem_append_left _ hc)
    have hrest : ∀ c ∈ (wss.map Worksheet.cells).flatten,
        (cellRender impl c).2 = Except.ok (r c) := fun c hc =>
      h c (by rw [List.map_cons, List.flatten_cons]; exact List.mem_append_right _ hc)
    show runWorksheets impl (ws :: wss) = _
    unfold runWorksheets
    rw [runCells_ok impl r ws.cells hws, ih hrest]
    simp [List.map_append, List.flatten_append]

theorem cellRender_unknown {impl : ConverterImpl} {c : Cell}
    (h : lookupA impl.render_methods c.cell_type = none) :
    cellRender impl c = (["Unknown cell: " ++ c.cell_type],
      impl.unknown_lines (pformatCell (preprocessCell c))) := by
  unfold cellRender dispatch
  rw [h]
  simp [preprocess_cell_type]

theorem cellRender_warn (impl : ConverterImpl) (c : Cell) :
    (cellRender impl c).1 = if (lookupA impl.render_methods c.cell_type).isNone
      then ["Unknown cell: " ++ c.cell_type] else [] := by
  unfold cellRender dispatch
  cases hl : lookupA impl.render_methods c.cell_type with
  | some f => simp
  | none => simp [preprocess_cell_type]

theorem cellRender_ok {impl : ConverterImpl} {c : Cell}
    (hreg : ∀ f, lookupA impl.render_methods c.cell_type = some f →
      ∃ ls, f (preprocessCell c) = Except.ok ls)
    (hunk : ∀ s, ∃ ls, impl.unknown_lines s = Except.ok ls) :
    ∃ ls, (cellRender impl c).2 = Except.ok ls := by
  unfold cellRender dispatch
  cases hl : lookupA impl.render_methods c.cell_type with
  | some f =>
    obtain ⟨ls, hls⟩ := hreg f hl
    exact ⟨ls, by simp [hls]⟩
  | none =>
    obtain ⟨ls, hls⟩ := hunk (pformatCell (preprocessCell c))
    exact ⟨ls, by simp [hls]⟩

theorem runCells_warn (impl : ConverterImpl) :
    ∀ (cs : List Cell), (∀ c ∈ cs, ∃ ls, (cellRender impl c).2 = Except.ok ls) →
    (∃ p, (runCells impl cs).2 = Except.ok p)
    ∧ (runCells impl cs).1 = (cs.map (fun c => (cellRender impl c).1)).flatten := by
  intro cs
  induction cs with
  | nil => intro h; exact ⟨⟨([], []), rfl⟩, rfl⟩
  | cons c cs ih =>
    intro h
    obtain ⟨ls, hc⟩ := h c (List.mem_cons_self c cs)
    obtain ⟨⟨q, hq⟩, hw⟩ := ih (fun x hx => h x (List.mem_cons_of_mem c hx))
    have hp : processCell impl c
        = ((cellRender impl c).1, Except.ok (preprocessCell c, pyJoin "\n" ls)) := by
      rw [processCell_eq, hc]
      rfl
    rcases hrc : runCells impl cs with ⟨w2, r2⟩
    rw [hrc] at hq hw
    have hq2 : r2 = Except.ok q := hq
    have hw2 : w2 = (cs.map (fun c => (cellRender impl c).1)).flatten := hw
    constructor
    · refine ⟨(preprocessCell c :: q.1, pyJoin "\n" ls :: q.2), ?_⟩
      show (runCells impl (c :: cs)).2 = _
      unfold runCells
      rw [hp, hrc, hq2]
    · show (runCells impl (c :: cs)).1 = _
      unfold runCells
      rw [hp, hrc, hq2]
      simp [hw2]

theorem runWorksheets_warn (impl : ConverterImpl) :
    ∀ (wss : List Worksheet),
    (∀ c ∈ (wss.map Worksheet.cells).flatten, ∃ ls, (cellRender impl c).2 = Except.ok ls) →
    (∃ p, (runWorksheets impl wss).2 = Except.ok p)
    ∧ (runWorksheets impl wss).1
        = ((wss.map Worksheet.cells).flatten.map (fun c => (cellRender impl c).1)).flatten := by
  intro wss
  induction wss with
  | nil => intro h; exact ⟨⟨([], []), rfl⟩, rfl⟩
  | cons ws wss ih =>
    intro h
    obtain ⟨⟨q1, hq1⟩, hw1⟩ := runCells_warn impl ws.cells (fun c hc =>
      h c (by rw [List.map_cons, List.flatten_cons]; exact List.mem_append_left _ hc))
    obtain ⟨⟨q2, hq2⟩, hw2⟩ := ih (fun c hc =>
      h c (by rw [List.map_cons, List.flatten_cons]; exact List.mem_append_right _ hc))
    rcases hrc : runCells impl ws.cells with ⟨w1, r1⟩
    rcases hrw : runWorksheets impl wss with ⟨w2, r2⟩
    rw [hrc] at hq1 hw1
    rw [hrw] at hq2 hw2
    have hr1 : r1 = Except.ok q1 := hq1
    have hr2 : r2 = Except.ok q2 := hq2
    have hww1 : w1 = (ws.cells.map (fun c => (cellRender impl c).1)).flatten := hw1
    have hww2 : w2
        = ((wss.map Worksheet.cells).flatten.map (fun c => (cellRender impl c).1)).flatten := hw2
    constructor
    · refine ⟨(Worksheet.mk q1.1 :: q2.1, q1.2 ++ q2.2), ?_⟩
      show (runWorksheets impl (ws :: wss)).2 = _
      unfold runWorksheets
      rw [hrc, hrw, hr1, hr2]
    · show (runWorksheets impl (ws :: wss)).1 = _
      unfold runWorksheets
      rw [hrc, hrw, hr1, hr2]
      simp [hww1, hww2, List.map_append, List.flatten_append]

theorem runCells_doc (impl : ConverterImpl) :
    ∀ (cs : List Cell) (p : List Cell × List String),
      (runCells impl cs).2 = Except.ok p → p.1 = cs.map preprocessCell := by
  intro cs
  induction cs with
  | nil =>
    intro p hp
    have hp' : Except.ok (([] : List Cell), ([] : List String)) = Except.ok p := hp
    injection hp' with h
    rw [← h]
    rfl
  | cons c cs ih =>
    intro p hp
    unfold runCells at hp
    rw [processCell_eq] at hp
    cases hcr : (cellRender impl c).2 with
    | error e =>
      rw [hcr] at hp
      simp [Except.map] at hp
    | ok ls =>
      rw [hcr] at hp
      rcases hrc : runCells impl cs with ⟨w2, r2⟩
      rw [hrc] at hp
      cases r2 with
      | error e => simp [Except.map] at hp
      | ok q =>
        simp [Except.map] at hp
        have hq : (runCells impl cs).2 = Except.ok q := by rw [hrc]
        have h1 := ih q hq
        rw [← hp]
        simp [h1]

theorem runWorksheets_doc (impl : ConverterImpl) :
    ∀ (wss : List Worksheet) (p : List Worksheet × List String),
      (runWorksheets impl wss).2 = Except.ok p →
      p.1 = wss.map (fun ws => Worksheet.mk (ws.cells.map preprocessCell)) := by
  intro wss
  induction wss with
  | nil =>
    intro p hp
    have hp' : Except.ok (([] : List Worksheet), ([] : List String)) = Except.ok p := hp
    injection hp' with h
    rw [← h]
    rfl
  | cons ws wss ih =>
    intro p hp
    unfold runWorksheets at hp
    rcases hrc : runCells impl ws.cells with ⟨w1, r1⟩
    rw [hrc] at hp
    cases r1 with
    | error e => simp at hp
    | ok q1 =>
      rcases hrw : runWorksheets impl wss with ⟨w2, r2⟩
      rw [hrw] at hp
      cases r2 with
      | error e => simp at hp
      | ok q2 =>
        simp at hp
        have hq1 : (runCells impl ws.cells).2 = Except.ok q1 := by rw [hrc]
        have hq2 : (runWorksheets impl wss).2 = Except.ok q2 := by rw [hrw]
        have hd1 := runCells_doc impl ws.cells q1 hq1
        have hd2 := ih q2 hq2
        rw [← hp]
        simp [hd1, hd2]

theorem flatten_warn (impl : ConverterImpl) : ∀ (l : List Cell),
    (l.map (fun c => (cellRender impl c).1)).flatten
      = (l.filter (fun c => (lookupA impl.render_methods c.cell_type).isNone)).map
          (fun c => "Unknown cell: " ++ c.cell_type) := by
  intro l
  induction l with
  | nil => rfl
  | cons c l ih =>
    rw [List.map_cons, List.flatten_cons, ih, List.filter_cons, cellRender_warn]
    cases hp : (lookupA impl.render_methods c.cell_type).isNone <;> simp [hp]


--------------------------------------------------------------------------
-- Claim theorems
--------------------------------------------------------------------------

/-- C1: `convert` produces exactly header ++ body ++ footer joined with
newline, and `main_body` is exactly: join every cell's rendered lines with
newline, concatenate the per-cell strings with the separator, re-split on
newline — over worksheets in document order and cells in worksheet order. -/
theorem spec_C1_assembly_refines (impl : ConverterImpl) (nb : Notebook) (sep : String)
    (r : Cell → List String)
    (h : ∀ c ∈ allCells nb, (cellRender impl c).2 = Except.ok (r c)) :
    (main_body impl nb sep).2 = Except.ok (afterNb nb, mainBodySpec nb sep r)
    ∧ (convert impl nb sep).2
        = Except.ok (afterNb nb,
            pyJoin "\n" (impl.optional_header ++ mainBodySpec nb sep r ++ impl.optional_footer)) := by
  have hrw := runWorksheets_ok impl r nb.worksheets h
  have hmb : (main_body impl nb sep).2 = Except.ok (afterNb nb, mainBodySpec nb sep r) := by
    rw [main_body_eq, hrw]
    simp [Except.map, afterNb, mainBodySpec, allCells]
  refine ⟨hmb, ?_⟩
  rw [convert_eq, hmb]
  rfl

/-- C4: a document whose unknown-kind cells are handled by the fallback:
`main_body` does not raise, its warning log holds exactly one `Unknown cell`
diagnostic per unregistered-kind cell (in order), and for each such cell the
fallback pretty-prints the cell and hands the string to the format's
unknown-content renderer — assuming registered renderers succeed and the
unknown-content renderer is implemented. -/
theorem spec_C4_unknown_cell_fallback (impl : ConverterImpl) (nb : Notebook) (sep : String)
    (hreg : ∀ c ∈ allCells nb, ∀ f, lookupA impl.render_methods c.cell_type = some f →
      ∃ ls, f (preprocessCell c) = Except.ok ls)
    (hunk : ∀ s, ∃ ls, impl.unknown_lines s = Except.ok ls) :
    (∃ p, (main_body impl nb sep).2 = Except.ok p)
    ∧ (main_body impl nb sep).1
        = ((allCells nb).filter (fun c => (lookupA impl.render_methods c.cell_type).isNone)).map
            (fun c => "Unknown cell: " ++ c.cell_type)
    ∧ (∀ c : Cell, lookupA impl.render_methods c.cell_type = none →
        cellRender impl c = (["Unknown cell: " ++ c.cell_type],
          impl.unknown_lines (pformatCell (preprocessCell c)))) := by
  have hok : ∀ c ∈ allCells nb, ∃ ls, (cellRender impl c).2 = Except.ok ls :=
    fun c hc => cellRender_ok (hreg c hc) hunk
  obtain ⟨⟨p, hp⟩, hw⟩ := runWorksheets_warn impl nb.worksheets hok
  refine ⟨⟨(Notebook.mk p.1, pySplitNl (pyJoin sep p.2)), ?_⟩, ?_, fun c hc => cellRender_unknown hc⟩
  · rw [main_body_eq, hp]
    rfl
  · rw [main_body_eq]
    show (runWorksheets impl nb.worksheets).1 = _
    rw [hw]
    exact flatten_warn impl ((nb.worksheets.map Worksheet.cells).flatten)

/-- C1 witness: the refinement theorem applied to a concrete two-cell
document and a concrete separator. -/
theorem spec_C1_witness :
    (∀ c ∈ allCells nbT1, (cellRender implT c).2 = Except.ok [c.content])
    ∧ (main_body implT nbT1 "SEP").2
        = Except.ok (afterNb nbT1, mainBodySpec nbT1 "SEP" (fun c => [c.content]))
    ∧ (convert implT nbT1 "SEP").2
        = Except.ok (afterNb nbT1,
            pyJoin "\n" (implT.optional_header ++ mainBodySpec nbT1 "SEP" (fun c => [c.content])
              ++ implT.optional_footer)) := by
  have h : ∀ c ∈ allCells nbT1, (cellRender implT c).2 = Except.ok [c.content] := by decide
  exact ⟨h, (spec_C1_assembly_refines implT nbT1 "SEP" (fun c => [c.content]) h).1,
    (spec_C1_assembly_refines implT nbT1 "SEP" (fun c => [c.content]) h).2⟩

/-- C4 witness: the fallback theorem applied to a concrete document with one
cell of unregistered kind `mystery`. -/
theorem spec_C4_witness :
    (∀ c ∈ allCells nbT4, ∀ f, lookupA implT.render_methods c.cell_type = some f →
      ∃ ls, f (preprocessCell c) = Except.ok ls)
    ∧ (∀ s, ∃ ls, implT.unknown_lines s = Except.ok ls)
    ∧ (∃ p, (main_body implT nbT4 "\n").2 = Except.ok p)
    ∧ (main_body implT nbT4 "\n").1
        = ((allCells nbT4).filter (fun c => (lookupA implT.render_methods c.cell_type).isNone)).map
            (fun c => "Unknown cell: " ++ c.cell_type)
    ∧ (∀ c : Cell, lookupA implT.render_methods c.cell_type = none →
        cellRender implT c = (["Unknown cell: " ++ c.cell_type],
          implT.unknown_lines (pformatCell (preprocessCell c)))) := by
  have hreg : ∀ c ∈ allCells nbT4, ∀ f, lookupA implT.render_methods c.cell_type = some f →
      ∃ ls, f (preprocessCell c) = Except.ok ls := by
    intro c hc f hf
    have hc' : c = Cell.mk "mystery" "m" [] := by simpa [allCells, nbT4] using hc
    rw [hc'] at hf
    exact Option.noConfusion
      (show (none : Option (Cell → Except String (List String))) = some f from hf)
  have hunk : ∀ s, ∃ ls, implT.unknown_lines s = Except.ok ls := fun s => ⟨["unk: " ++ s], rfl⟩
  obtain ⟨h1, h2, h3⟩ := spec_C4_unknown_cell_fallback implT nbT4 "\n" hreg hunk
  exact ⟨hreg, hunk, h1, h2, h3⟩

/-- C9: the claim that `convert` leaves the document unchanged fails — the
pre-processing hook mutates markdown/raw cell content in place.  Concretely,
a markdown cell containing the fake-files marker comes back altered. -/
theorem spec_C9_counterexample :
    main_body implT nbT9 "\n" = ([], Except.ok (nbT9b, ["a.png"]))
    ∧ nbT9b ≠ nbT9 := ⟨by rfl, by decide⟩

/-- C9 (amended): a `convert` call leaves the document unchanged EXCEPT that
markdown and raw cells have fake-files URL markers stripped from their
content: the resulting document is exactly the cell-wise pre-processing of
the input, which preserves every kind tag and output list and leaves cells
of any other kind fully unchanged. -/
theorem spec_C9_borrow_amended (impl : ConverterImpl) (nb : Notebook) (sep : String)
    (w : List String) (nbOut : Notebook) (body : List String)
    (h : main_body impl nb sep = (w, Except.ok (nbOut, body))) :
    nbOut = afterNb nb
    ∧ (∀ c : Cell, (preprocessCell c).cell_type = c.cell_type
        ∧ (preprocessCell c).outputs = c.outputs)
    ∧ (∀ c : Cell, ¬(c.cell_type = "markdown" ∨ c.cell_type = "raw") → preprocessCell c = c) := by
  refine ⟨?_, fun c => ⟨preprocess_cell_type c, preprocess_outputs c⟩,
    fun c hc => preprocess_other hc⟩
  have h2 : (main_body impl nb sep).2 = Except.ok (nbOut, body) := by rw [h]
  rw [main_body_eq] at h2
  have h3 : Except.map (fun p => (Notebook.mk p.1, pySplitNl (pyJoin sep p.2)))
      (runWorksheets impl nb.worksheets).2 = Except.ok (nbOut, body) := h2
  cases hq : (runWorksheets impl nb.worksheets).2 with
  | error e => rw [hq] at h3; simp [Except.map] at h3
  | ok q =>
    rw [hq] at h3
    simp [Except.map] at h3
    have hdoc := runWorksheets_doc impl nb.worksheets q hq
    rw [← h3.1, hdoc]
    rfl

/-- C9 witness: the amended theorem applied to the concrete mutated-marker
document. -/
theorem spec_C9_witness :
    main_body implT nbT9 "\n" = ([], Except.ok (nbT9b, ["a.png"]))
    ∧ (nbT9b = afterNb nbT9
       ∧ (∀ c : Cell, (preprocessCell c).cell_type = c.cell_type
            ∧ (preprocessCell c).outputs = c.outputs)
       ∧ (∀ c : Cell, ¬(c.cell_type = "markdown" ∨ c.cell_type = "raw") →
            preprocessCell c = c)) :=
  ⟨by rfl, spec_C9_borrow_amended implT nbT9 "\n" [] nbT9b ["a.png"] (by rfl)⟩

theorem exceptOk_exists {α : Type} (e : Except String α) (h : e.isOk = true) :
    ∃ a, e = Except.ok a := by
  cases e with
  | error x => simp [Except.isOk, Except.toBool] at h
  | ok a => exact ⟨a, rfl⟩

theorem rdd_loop_spec (impl : ConverterImpl) (out : Output) :
    ∀ (keys : List String) (st : Session) (lines : List String),
    (∀ fmt ∈ keys, isImage fmt = false → fmt ≠ "output_type" → displayOk impl out fmt = true) →
    (∀ fmt ∈ keys, isImage fmt = true → ∀ pth, (imgFun impl fmt pth).isOk = true) →
    (∃ p, displayDataSpec impl out keys st = Except.ok p)
    ∧ rdd_loop impl out keys st lines
        = Except.map (fun p => (lines ++ p.1, p.2)) (displayDataSpec impl out keys st) := by
  intro keys
  induction keys with
  | nil =>
    intro st lines h1 h2
    exact ⟨⟨([], st), rfl⟩, by simp [rdd_loop, displayDataSpec, Except.map]⟩
  | cons fmt rest ih =>
    intro st lines h1 h2
    have h1r : ∀ g ∈ rest, isImage g = false → g ≠ "output_type" → displayOk impl out g = true :=
      fun g hg => h1 g (List.mem_cons_of_mem _ hg)
    have h2r : ∀ g ∈ rest, isImage g = true → ∀ pth, (imgFun impl g pth).isOk = true :=
      fun g hg => h2 g (List.mem_cons_of_mem _ hg)
    by_cases himg : isImage fmt = true
    · obtain ⟨ls, hls⟩ := exceptOk_exists _
        (h2 fmt (List.mem_cons_self _ _) himg (new_figure st (outGet out fmt) fmt).1)
      obtain ⟨⟨p, hp⟩, hloop⟩ := ih (new_figure st (outGet out fmt) fmt).2 (lines ++ ls) h1r h2r
      constructor
      · exact ⟨(ls ++ p.1, p.2), by simp [displayDataSpec, himg, hls, hp]⟩
      · simp [rdd_loop, displayDataSpec, himg, hls, hp, hloop, Except.map, List.append_assoc]
    · have himgf : isImage fmt = false := by simpa using himg
      by_cases hot : fmt = "output_type"
      · subst hot
        obtain ⟨⟨p, hp⟩, hloop⟩ := ih st lines h1r h2r
        constructor
        · exact ⟨p, by simpa [displayDataSpec, himgf] using hp⟩
        · simpa [rdd_loop, displayDataSpec, himgf] using hloop
      · have hdo := h1 fmt (List.mem_cons_self _ _) himgf hot
        unfold displayOk at hdo
        cases hl : lookupA impl.display_methods fmt with
        | none => rw [hl] at hdo; simp at hdo
        | some f =>
          rw [hl] at hdo
          simp at hdo
          obtain ⟨ls, hls⟩ := exceptOk_exists _ hdo
          obtain ⟨⟨p, hp⟩, hloop⟩ := ih st (lines ++ ls) h1r h2r
          constructor
          · exact ⟨(ls ++ p.1, p.2), by simp [displayDataSpec, himgf, hot, hl, hls, hp]⟩
          · simp [rdd_loop, displayDataSpec, himgf, hot, hl, hls, hp, hloop,
              dispatch_display_format, Except.map, List.append_assoc]

/-- C2: under the hypotheses that every non-image, non-`output_type` tag of
the output has a registered display renderer that succeeds and the chosen
image renderers succeed, `render_display_data` equals the spec-side
iteration: image tags go through the figure extractor and then the preferred
image renderer, the literal `output_type` key is skipped (never dispatched),
every other tag is dispatched and rendered, and the per-tag line lists are
concatenated in iteration order.  Moreover the type-specific image renderer
is preferred over the generic one exactly when registered. -/
theorem spec_C2_display_data (impl : ConverterImpl) (st : Session) (out : Output)
    (h1 : ∀ fmt ∈ out.map Prod.fst, isImage fmt = false → fmt ≠ "output_type" →
      displayOk impl out fmt = true)
    (h2 : ∀ fmt ∈ out.map Prod.fst, isImage fmt = true → ∀ pth,
      (imgFun impl fmt pth).isOk = true) :
    render_display_data impl st out = displayDataSpec impl out (out.map Prod.fst) st
    ∧ (∃ p, displayDataSpec impl out (out.map Prod.fst) st = Except.ok p)
    ∧ (∀ (st' : Session) (rest : List String) (lines : List String),
        rdd_loop impl out ("output_type" :: rest) st' lines = rdd_loop impl out rest st' lines)
    ∧ (∀ (fmt : String) (g : String → Except String (List String)),
        lookupA impl.fmt_lines fmt = some g → imgFun impl fmt = g)
    ∧ (∀ fmt : String, lookupA impl.fmt_lines fmt = none → imgFun impl fmt = impl.img_lines) := by
  obtain ⟨⟨p, hp⟩, hloop⟩ := rdd_loop_spec impl out (out.map Prod.fst) st [] h1 h2
  refine ⟨?_, ⟨p, hp⟩, ?_, ?_, ?_⟩
  · unfold render_display_data
    rw [hloop, hp]
    simp [Except.map]
  · intro st' rest lines
    simp [rdd_loop, isImage]
  · intro fmt g hg
    unfold imgFun
    rw [hg]
    rfl
  · intro fmt hg
    unfold imgFun
    rw [hg]
    rfl

/-- C2 witness: a display-data output with a png payload and a text payload,
rendered with the concrete implementation. -/
theorem spec_C2_witness :
    (∀ fmt ∈ outT2.map Prod.fst, isImage fmt = false → fmt ≠ "output_type" →
      displayOk implT outT2 fmt = true)
    ∧ (∀ fmt ∈ outT2.map Prod.fst, isImage fmt = true → ∀ pth,
        (imgFun implT fmt pth).isOk = true)
    ∧ render_display_data implT sessT outT2
        = displayDataSpec implT outT2 (outT2.map Prod.fst) sessT
    ∧ (∃ p, displayDataSpec implT outT2 (outT2.map Prod.fst) sessT = Except.ok p) := by
  have h1 : ∀ fmt ∈ outT2.map Prod.fst, isImage fmt = false → fmt ≠ "output_type" →
      displayOk implT outT2 fmt = true := by decide
  have hpng : ∀ fmt ∈ outT2.map Prod.fst, isImage fmt = true → fmt = "png" := by decide
  have h2 : ∀ fmt ∈ outT2.map Prod.fst, isImage fmt = true → ∀ pth,
      (imgFun implT fmt pth).isOk = true := by
    intro fmt hf hi pth
    rw [hpng fmt hf hi]
    rfl
  obtain ⟨ha, hb, -, -, -⟩ := spec_C2_display_data implT sessT outT2 h1 h2
  exact ⟨h1, h2, ha, hb⟩

/-- C3: the unknown-display fallback is broken in the code: for an output
tag with no registered display renderer, dispatch resolves to the
two-parameter `render_unknown_display`, and `render_display_data` then calls
it with a single argument — raising a `TypeError` instead of recovering with
a warning.  The spec's promise that an unknown format is never fatal does
not hold on this code path. -/
theorem spec_C3_unknown_display_raises :
    (∃ g, dispatch_display_format implT "foo" = DispFn.binary g)
    ∧ render_display_data implT sessT outT3
        = Except.error "TypeError: render_unknown_display() takes exactly 3 arguments (2 given)" :=
  ⟨⟨render_unknown_display implT, rfl⟩, by rfl⟩

/-- C6: `render_stream` is a direct alias of the resolved
`render_display_format_text` method — both return identical line buffers on
every output, for every implementation. -/
theorem spec_C6_stream_alias (impl : ConverterImpl) (out : Output) :
    render_stream impl out = render_display_format_text_m impl out := rfl

/-- C5: within one session, every `_new_figure` call increases the figure
counter by exactly 1; over any call sequence the counter grows by exactly
the number of calls (never reset or decreased), and the generated file
paths are pairwise distinct. -/
theorem spec_C5_counter_and_unique_names :
    (∀ (st : Session) (d f : String),
        (new_figure st d f).2.figures_counter = st.figures_counter + 1)
    ∧ (∀ (st : Session) (ps : List (String × String)),
        (runFigures st ps).2.figures_counter = st.figures_counter + ps.length)
    ∧ (∀ (st : Session) (ps : List (String × String)),
        (runFigures st ps).1.Pairwise (fun a b => a ≠ b)) := by
  refine ⟨fun st d f => rfl, fun st ps => runFigures_counter ps st, fun st ps => ?_⟩
  rw [runFigures_paths]
  exact expectedPaths_pairwise ps _ _ _

/-- C7: `_new_figure` writes exactly the base64-decoding of the payload for
the binary tags png/jpg/pdf, and the payload as text in the default encoding
for every other tag; reading the written asset file back returns exactly the
stored data. -/
theorem spec_C7_payload_roundtrip (st : Session) (d fmt : String) :
    (new_figure st d fmt).1
        = st.files_dir ++ "/" ++ mkFigname st.infile_root st.figures_counter fmt
    ∧ readFile (new_figure st d fmt).2.fs st.files_dir
        (mkFigname st.infile_root st.figures_counter fmt)
      = some (if fmt = "png" ∨ fmt = "jpg" ∨ fmt = "pdf"
              then FileData.binary (base64Decode d)
              else FileData.text d default_encoding) := by
  refine ⟨rfl, ?_⟩
  rw [new_figure_fs]
  exact readFile_writeFile _ _ _ _

/-- C8: the asset directory is created at session start if absent; after
teardown a session with zero extracted figures leaves no asset directory,
while a session with N ≥ 1 figures leaves the directory containing exactly
N files. -/
theorem spec_C8_asset_dir_lifecycle (fs : FS) (idir root : String)
    (ps : List (String × String))
    (hdir : (idir ++ "/" ++ (root ++ "_files")) ∉ fs.dirs)
    (hfiles : listdir fs (idir ++ "/" ++ (root ++ "_files")) = []) :
    (idir ++ "/" ++ (root ++ "_files")) ∈ (converter_init fs idir root).fs.dirs
    ∧ (ps = [] → (idir ++ "/" ++ (root ++ "_files")) ∉ (sessionRun fs idir root ps).dirs)
    ∧ (ps ≠ [] → (idir ++ "/" ++ (root ++ "_files")) ∈ (sessionRun fs idir root ps).dirs
        ∧ (listdir (sessionRun fs idir root ps) (idir ++ "/" ++ (root ++ "_files"))).length
            = ps.length) := by
  have hD : (converter_init fs idir root).files_dir = idir ++ "/" ++ (root ++ "_files") := rfl
  have hlist0 : listdir (converter_init fs idir root).fs (idir ++ "/" ++ (root ++ "_files"))
      = listdir fs (idir ++ "/" ++ (root ++ "_files")) := by
    unfold listdir
    rw [converter_init_files]
  have hnil0 : listdir (converter_init fs idir root).fs (idir ++ "/" ++ (root ++ "_files"))
      = [] := by rw [hlist0, hfiles]
  have hinv0 : goodInv (converter_init fs idir root) := by
    intro e he hd
    exfalso
    rw [converter_init_files] at he
    rw [hD] at hd
    have hmem : e ∈ listdir fs (idir ++ "/" ++ (root ++ "_files")) :=
      List.mem_filter.mpr ⟨he, by simp [hd]⟩
    rw [hfiles] at hmem
    simp at hmem
  obtain ⟨hinvN, hlenN⟩ := runFigures_inv ps (converter_init fs idir root) hinv0
  rw [hD] at hlenN
  rw [hnil0] at hlenN
  simp only [List.length_nil, Nat.zero_add] at hlenN
  refine ⟨converter_init_dir_mem fs idir root, ?_, ?_⟩
  · intro hps
    subst hps
    show (idir ++ "/" ++ (root ++ "_files"))
        ∉ (converter_del (converter_init fs idir root)).dirs
    unfold converter_del
    rw [if_pos ⟨by rw [hD]; exact converter_init_dir_mem fs idir root, by rw [hD]; exact hnil0⟩]
    show (idir ++ "/" ++ (root ++ "_files"))
        ∉ (converter_init fs idir root).fs.dirs.erase (converter_init fs idir root).files_dir
    rw [hD, converter_init_dirs_of_absent fs idir root hdir, List.erase_cons_head]
    exact hdir
  · intro hps
    have hne : listdir (runFigures (converter_init fs idir root) ps).2.fs
        (idir ++ "/" ++ (root ++ "_files")) ≠ [] := by
      intro h0
      rw [h0] at hlenN
      simp only [List.length_nil] at hlenN
      exact hps (List.length_eq_zero.mp hlenN.symm)
    have hfd1 : (runFigures (converter_init fs idir root) ps).2.files_dir
        = idir ++ "/" ++ (root ++ "_files") := by
      rw [runFigures_files_dir]
      exact hD
    have hrun : sessionRun fs idir root ps
        = (runFigures (converter_init fs idir root) ps).2.fs := by
      unfold sessionRun converter_del
      rw [if_neg]
      rintro ⟨-, h2⟩
      rw [hfd1] at h2
      exact hne h2
    refine ⟨?_, ?_⟩
    · rw [hrun, runFigures_dirs]
      exact converter_init_dir_mem fs idir root
    · rw [hrun]
      exact hlenN

/-- C8 witness: a concrete one-figure session creates the asset directory
and leaves it containing exactly one file after teardown. -/
theorem spec_C8_witness :
    (("d" ++ "/" ++ ("nb" ++ "_files")) ∉ (FS.mk [] []).dirs
      ∧ listdir (FS.mk [] []) ("d" ++ "/" ++ ("nb" ++ "_files")) = [])
    ∧ (("d" ++ "/" ++ ("nb" ++ "_files")) ∈ (converter_init (FS.mk [] []) "d" "nb").fs.dirs
        ∧ ("d" ++ "/" ++ ("nb" ++ "_files")) ∈ (sessionRun (FS.mk [] []) "d" "nb" [("QUJD", "png")]).dirs
        ∧ (listdir (sessionRun (FS.mk [] []) "d" "nb" [("QUJD", "png")])
            ("d" ++ "/" ++ ("nb" ++ "_files"))).length = [("QUJD", "png")].length) := by
  refine ⟨⟨by simp, rfl⟩, ?_⟩
  have h := spec_C8_asset_dir_lifecycle (FS.mk [] []) "d" "nb" [("QUJD", "png")]
    (by simp) rfl
  exact ⟨h.1, (h.2.2 (by simp)).1, (h.2.2 (by simp)).2⟩

/-- C10: the path returned by a `_new_figure` call embeds the counter value
read before the increment; starting from counter 0 the k-th extraction
(0-based) embeds index k, so the first figure is `<root>_fig_00.<ext>`; the
index is zero-padded to exactly two digits while below 100 and grows to at
least three digits from 100 on. -/
theorem spec_C10_filename_indexing :
    (∀ (st : Session) (d f : String),
        (new_figure st d f).1 = mkFullname st.files_dir st.infile_root st.figures_counter f)
    ∧ (∀ (dir root : String) (fs0 : FS) (ps : List (String × String)) (k : Nat),
        k < ps.length →
        ((runFigures (Session.mk root dir 0 fs0) ps).1.getD k "")
          = mkFullname dir root k (ps.getD k ("", "")).2)
    ∧ (pad2Str 0 = "00")
    ∧ (∀ i : Nat, i < 100 → (pad2Str i).length = 2)
    ∧ (∀ i : Nat, 100 ≤ i → 3 ≤ (pad2Str i).length) := by
  refine ⟨fun st d f => rfl, ?_, by decide, ?_, ?_⟩
  · intro dir root fs0 ps k hk
    rw [runFigures_paths]
    have h := expectedPaths_getD ps dir root 0 k hk
    simpa using h
  · intro i hi
    show (pad2 i).length = 2
    exact pad2_len_two hi
  · intro i hi
    show 3 ≤ (pad2 i).length
    exact pad2_len_ge_three hi

/-- C10 witness: two extractions from a fresh session; the second path
(0-based index 1) embeds index 1, and the padding facts hold at 5 and 123. -/
theorem spec_C10_witness :
    ((1 : Nat) < [("a", "png"), ("b", "svg")].length
      ∧ ((runFigures (Session.mk "nb" "d" 0 (FS.mk [] [])) [("a", "png"), ("b", "svg")]).1.getD 1 "")
          = mkFullname "d" "nb" 1 ([("a", "png"), ("b", "svg")].getD 1 ("", "")).2)
    ∧ ((5 : Nat) < 100 ∧ (pad2Str 5).length = 2)
    ∧ ((100 : Nat) ≤ 123 ∧ 3 ≤ (pad2Str 123).length) := by
  refine ⟨⟨by decide, ?_⟩, ⟨by decide, ?_⟩, ⟨by decide, ?_⟩⟩
  · exact spec_C10_filename_indexing.2.1 "d" "nb" (FS.mk [] []) [("a", "png"), ("b", "svg")] 1
      (by decide)
  · exact spec_C10_filename_indexing.2.2.2.1 5 (by decide)
  · exact spec_C10_filename_indexing.2.2.2.2 123 (by decide)

end NBC
